import Mathlib

/-!
Verification development for the resilient Gemini generation client
(`pkg/ai/gemini` of `shouni/go-ai-client`).

The definitions below are a shallow embedding of the Go sources:

* the error domain (`GoError`) covers the error shapes that flow through
  the client: `*APIResponseError` values produced by the response
  extractor, the caller-context errors `context.Canceled` and
  `context.DeadlineExceeded`, gRPC status errors produced by the
  transport, `fmt.Errorf`-style wrapping with `%w`, and plain opaque
  errors; `errors.As`, `errors.Is` and `status.FromError` are embedded as
  chain-walking functions, matching their Go semantics on these shapes;
* `shouldRetry` and `extractTextFromResponse` are embedded from
  `src/unnamed/part_009` (the current revision of `client.go`);
* `GenerateContent` and `GenerateWithParts` are embedded from the same
  file as trace-producing functions: the remote endpoints
  (`Models.GenerateContent`, `Files.Upload`) are oracles supplied as
  arguments, and every network operation issued is recorded in a trace;
* the external retry executor `retry.Do` (module `go-utils/retry`, not
  part of this repository) is modelled from the spec as a bounded loop
  with a retry predicate;
* binary payloads (`genai.Blob.Data`) are represented by their byte
  length, the only aspect the client inspects.
-/

namespace GoAiClient

/-- gRPC status codes (google.golang.org/grpc/codes). -/
inductive Code where
  | ok
  | cancelled
  | unknown
  | invalidArgument
  | deadlineExceeded
  | notFound
  | alreadyExists
  | permissionDenied
  | resourceExhausted
  | failedPrecondition
  | aborted
  | outOfRange
  | unimplemented
  | internal
  | unavailable
  | dataLoss
  | unauthenticated
  deriving DecidableEq, Repr

/-- Candidate finish reasons (genai.FinishReason). -/
inductive FinishReason where
  | unspecified
  | stop
  | maxTokens
  | safety
  | recitation
  | blocklist
  | prohibitedContent
  | otherReason
  deriving DecidableEq, Repr

/-- The error shapes that flow through the client. `wrapped` is
`fmt.Errorf` with a single `%w` verb (the only wrapping used by the
sources); the leaves are the error values the program and its SDK
produce. -/
inductive GoError where
  | apiResponseError (msg : String)
  | contextCanceled
  | contextDeadlineExceeded
  | grpcStatusError (code : Code) (msg : String)
  | wrapped (msg : String) (inner : GoError)
  | other (msg : String)
  deriving DecidableEq, Repr

/-- `errors.As(err, &apiErr)` for `*APIResponseError`: walks the wrap
chain looking for an `APIResponseError` leaf. -/
def errorsAsAPIResponseError : GoError → Bool
  | .apiResponseError _ => true
  | .wrapped _ inner => errorsAsAPIResponseError inner
  | _ => false

/-- `errors.Is(err, context.Canceled)`. -/
def errorsIsContextCanceled : GoError → Bool
  | .contextCanceled => true
  | .wrapped _ inner => errorsIsContextCanceled inner
  | _ => false

/-- `errors.Is(err, context.DeadlineExceeded)`. -/
def errorsIsContextDeadlineExceeded : GoError → Bool
  | .contextDeadlineExceeded => true
  | .wrapped _ inner => errorsIsContextDeadlineExceeded inner
  | _ => false

/-- `status.FromError`: yields the gRPC code when the chain carries a
status error (grpc's `FromError` finds it through `errors.As`), and
nothing otherwise (`ok == false`, on which the client bails out). -/
def statusFromError : GoError → Option Code
  | .grpcStatusError c _ => some c
  | .wrapped _ inner => statusFromError inner
  | _ => none

/-- genai.Blob: the inline binary payload of a part. `Data` is
represented by its byte length, the only aspect the client inspects. -/
structure Blob where
  dataLen : Nat
  mimeType : String := ""
  deriving DecidableEq, Repr

/-- genai.FileData: a reference-only payload pointing at an uploaded
file. -/
structure FileData where
  fileURI : String
  deriving DecidableEq, Repr

/-- genai.Part. -/
structure Part where
  text : String := ""
  inlineData : Option Blob := none
  fileData : Option FileData := none
  deriving DecidableEq, Repr

instance : Inhabited Part := ⟨{}⟩

/-- genai.Content. -/
structure Content where
  role : String := ""
  parts : List Part := []
  deriving DecidableEq, Repr

/-- genai.Candidate (the fields the client reads). -/
structure Candidate where
  finishReason : FinishReason := .unspecified
  content : Option Content := none
  deriving DecidableEq, Repr

/-- genai.GenerateContentResponse (the fields the client reads). -/
structure GenerateContentResponse where
  candidates : List Candidate := []
  deriving DecidableEq, Repr

/-- genai.ImageConfig (the field the client sets). -/
structure ImageConfig where
  aspectRatio : String := ""
  deriving DecidableEq, Repr

/-- genai.GenerateContentConfig (the fields the client sets); the zero
value of each unset field mirrors the Go zero value. Temperature and
TopP (float32 in Go) are represented as rationals: the client only
stores and range-checks them. -/
structure GenerateContentConfig where
  temperature : Option Rat := none
  topP : Option Rat := none
  candidateCount : Int := 0
  seed : Option Int := none
  imageConfig : Option ImageConfig := none
  deriving DecidableEq, Repr

/-- ImageOptions (part_009). -/
structure ImageOptions where
  aspectRatio : String := ""
  seed : Option Int := none
  deriving DecidableEq, Repr

/-- The fields of the external retry.Config that the client sets.
Durations (int64 nanoseconds in Go) are Int. -/
structure RetryConfig where
  maxRetries : Nat
  initialInterval : Int
  maxInterval : Int
  deriving DecidableEq, Repr

/-- Client (part_009): the `*genai.Client` handle is not state, it is
the network oracle supplied to each operation. -/
structure Client where
  temperature : Rat
  retryConfig : RetryConfig
  deriving DecidableEq, Repr

/-- Config (part_009). MaxRetries is uint64, hence Nat; the delay
fields are time.Duration, hence Int. -/
structure Config where
  apiKey : String := ""
  temperature : Option Rat := none
  maxRetries : Nat := 0
  initialDelay : Int := 0
  maxDelay : Int := 0
  deriving DecidableEq, Repr

/-- Response (part_009). -/
structure Response where
  text : String
  rawResponse : GenerateContentResponse
  deriving DecidableEq, Repr

def DefaultTemperature : Rat := 7/10

def DefaultMaxRetries : Nat := 3

/-- 30 seconds, in nanoseconds. -/
def DefaultInitialDelay : Int := 30 * 1000000000

/-- 120 seconds, in nanoseconds. -/
def DefaultMaxDelay : Int := 120 * 1000000000

def DefaultTopP : Rat := 95/100

def DefaultCandidateCount : Int := 1

/-- 512 KiB threshold for the inline-data offload (part_009). -/
def fileAPITransferThreshold : Nat := 512 * 1024

/-- A network operation issued by the client, as recorded in traces:
an upload of the oversized part at a given index, a call to the
generation endpoint, or a File API deletion. -/
inductive NetCall where
  | uploadCall (partIndex : Nat)
  | generateCall (modelName : String) (contents : List Content) (config : GenerateContentConfig)
  | deleteCall (fileName : String)
  deriving DecidableEq, Repr

def NetCall.isDeleteCall : NetCall → Bool
  | .deleteCall _ => true
  | _ => false

/-- shouldRetry (part_009 lines 279-303, identically part_010 and the
second revision in client.go lines 506-523): response-rejection errors
and caller-context errors are never retried; otherwise only the four
transient gRPC codes are. -/
def shouldRetry (err : GoError) : Bool :=
  if errorsAsAPIResponseError err then false
  else if errorsIsContextCanceled err || errorsIsContextDeadlineExceeded err then false
  else
    match statusFromError err with
    | none => false
    | some c =>
      match c with
      | .deadlineExceeded | .unavailable | .resourceExhausted | .internal => true
      | _ => false

/-- The set of gRPC codes shouldRetry treats as transient. -/
def transientCode : Code → Bool
  | .deadlineExceeded | .unavailable | .resourceExhausted | .internal => true
  | _ => false

/-- Rendering of a FinishReason by fmt's %v verb (its String method). -/
def finishReasonText : FinishReason → String
  | .unspecified => "FINISH_REASON_UNSPECIFIED"
  | .stop => "STOP"
  | .maxTokens => "MAX_TOKENS"
  | .safety => "SAFETY"
  | .recitation => "RECITATION"
  | .blocklist => "BLOCKLIST"
  | .prohibitedContent => "PROHIBITED_CONTENT"
  | .otherReason => "OTHER"

/-- The block-rejection message of extractTextFromResponse. -/
def blockedMsg (r : FinishReason) : String :=
  "生成がブロックされました。理由: " ++ finishReasonText r

/-- The part_009 loop over candidate parts: first non-empty Text field,
or the empty string. -/
def firstNonEmptyText : List Part → String
  | [] => ""
  | p :: rest => if p.text ≠ "" then p.text else firstNonEmptyText rest

/-- extractTextFromResponse (part_009 lines 306-332). The argument is
an Option because the Go receiver is a nilable pointer. Empty content
is not an error: the extractor returns the empty string. -/
def extractTextFromResponse : Option GenerateContentResponse → Except GoError String
  | none => .error (.apiResponseError "Gemini APIから空のレスポンスが返されました")
  | some resp =>
    match resp.candidates with
    | [] => .error (.apiResponseError "Gemini APIから空のレスポンスが返されました")
    | candidate :: _ =>
      if candidate.finishReason ≠ .unspecified ∧ candidate.finishReason ≠ .stop then
        .error (.apiResponseError (blockedMsg candidate.finishReason))
      else
        match candidate.content with
        | none => .ok ""
        | some content =>
          match content.parts with
          | [] => .ok ""
          | ps => .ok (firstNonEmptyText ps)

/-- NewClient (part_009 lines 68-116). The success of the external
`genai.NewClient` call is an oracle (Bool argument): its failure path
only forwards the SDK error. -/
def NewClient (genaiClientOk : Bool) (cfg : Config) : Except GoError Client :=
  if cfg.apiKey = "" then
    .error (.other "APIキーは必須です。設定を確認してください")
  else if ¬ genaiClientOk then
    .error (.wrapped "Geminiクライアントの作成に失敗しました" (.other "genai.NewClient"))
  else
    match cfg.temperature with
    | some t =>
      if t < 0 ∨ t > 1 then
        .error (.other "温度設定は0.0から1.0の間である必要があります")
      else .ok (mkClient t cfg)
    | none => .ok (mkClient DefaultTemperature cfg)
where
  /-- The retry-config construction shared by both temperature branches
  (part_009 lines 91-115): every field of the retry config is assigned
  in both arms, so the external retry.DefaultConfig seed is irrelevant
  to the fields modelled here. -/
  mkClient (temp : Rat) (cfg : Config) : Client :=
    { temperature := temp
      retryConfig :=
        { maxRetries := if cfg.maxRetries > 0 then cfg.maxRetries else DefaultMaxRetries
          initialInterval := if cfg.initialDelay > 0 then cfg.initialDelay else DefaultInitialDelay
          maxInterval := if cfg.maxDelay > 0 then cfg.maxDelay else DefaultMaxDelay } }

/-- promptToContents (part_009 lines 267-269). -/
def promptToContents (text : String) : List Content :=
  [{ role := "user", parts := [{ text := text }] }]

/-- Modelled from the spec: the external retry executor `retry.Do`
(module github.com/shouni/go-utils/retry) is not part of this
repository. Per spec section 4.3 it runs the operation up to
maxRetries + 1 times, stops at the first success or the first failure
the predicate rejects, and annotates exhaustion. `fuel` is the number
of retries still allowed; `op` returns the network calls one attempt
issues together with its outcome. -/
def retryLoop {A : Type} (pred : GoError → Bool)
    (op : Nat → List NetCall × Except GoError A) :
    Nat → Nat → List NetCall × Except GoError A
  | 0, attempt =>
    (match (op attempt).2 with
      | .ok a => ((op attempt).1, .ok a)
      | .error e =>
        ((op attempt).1, .error (if pred e then .wrapped "retries exhausted" e else e)))
  | fuel + 1, attempt =>
    (match (op attempt).2 with
      | .ok a => ((op attempt).1, .ok a)
      | .error e =>
        if pred e then
          let p := retryLoop pred op fuel (attempt + 1)
          ((op attempt).1 ++ p.1, p.2)
        else ((op attempt).1, .error e))

/-- One generation operation under the retry executor: each attempt
calls Models.GenerateContent (the `gen` oracle, indexed by attempt
number) and then extractTextFromResponse, exactly as the `op` closures
of part_009 lines 148-159 and 242-256 do. -/
def runGenerateOp (c : Client) (gen : Nat → Except GoError GenerateContentResponse)
    (modelName : String) (contents : List Content) (config : GenerateContentConfig) :
    List NetCall × Except GoError Response :=
  retryLoop shouldRetry
    (fun attempt =>
      match gen attempt with
      | .error e => ([.generateCall modelName contents config], .error e)
      | .ok resp =>
        match extractTextFromResponse (some resp) with
        | .error e => ([.generateCall modelName contents config], .error e)
        | .ok text => ([.generateCall modelName contents config], .ok { text := text, rawResponse := resp }))
    c.retryConfig.maxRetries 0

/-- GenerateContent (part_009 lines 137-168): fail fast on the empty
prompt, then run the generate-and-extract operation under the retry
executor with shouldRetry as predicate. -/
def GenerateContent (c : Client) (gen : Nat → Except GoError GenerateContentResponse)
    (finalPrompt modelName : String) : List NetCall × Except GoError Response :=
  if finalPrompt = "" then
    ([], .error (.other "プロンプトが空です。入力を確認してください"))
  else
    runGenerateOp c gen modelName (promptToContents finalPrompt)
      { temperature := some c.temperature }

/-- The offload guard of part_009 line 202:
`p.InlineData != nil && len(p.InlineData.Data) > fileAPITransferThreshold`. -/
def Part.isOversized (p : Part) : Bool :=
  match p.inlineData with
  | some b => fileAPITransferThreshold < b.dataLen
  | none => false

/-- The indices the offload loop of part_009 lines 201-217 marks for
upload, in slice order. -/
def oversizedIndices (parts : List Part) : List Nat :=
  (parts.enum.filter (fun ip => ip.2.isOversized)).map Prod.fst

/-- The parallel upload fan-out of part_009 lines 201-224, linearized
in index order with the errgroup join: each marked part is uploaded via
the `upload` oracle (index ↦ file URI); the first failure fails the
join, wrapped as in line 211. -/
def uploadAll (upload : Nat → Except GoError String) :
    List Nat → List NetCall × Except GoError (List (Nat × String))
  | [] => ([], .ok [])
  | i :: rest =>
    match upload i with
    | .error e =>
      ([.uploadCall i], .error (.wrapped "failed to upload large inline data to File API" e))
    | .ok uri =>
      let p := uploadAll upload rest
      (.uploadCall i :: p.1,
        match p.2 with
        | .error e => .error e
        | .ok l => .ok ((i, uri) :: l))

/-- The substitution of part_009 line 213: each uploaded index is
replaced in the copied slice by a fresh reference-only part
`&genai.Part{FileData: &genai.FileData{FileURI: fileURI}}`. -/
def substituteParts (parts : List Part) (subs : List (Nat × String)) : List Part :=
  parts.enum.map (fun ip =>
    match subs.find? (fun s => s.1 == ip.1) with
    | some s => { fileData := some { fileURI := s.2 } }
    | none => ip.2)

/-- The generation config built by part_009 lines 227-239: a struct
literal followed by the conditional ImageConfig assignment guarded by
`opts.AspectRatio != ""`. -/
def buildGenConfig (c : Client) (opts : ImageOptions) : GenerateContentConfig :=
  let base : GenerateContentConfig :=
    { temperature := some c.temperature
      topP := some DefaultTopP
      candidateCount := DefaultCandidateCount
      seed := opts.seed }
  if opts.aspectRatio ≠ "" then
    { base with imageConfig := some { aspectRatio := opts.aspectRatio } }
  else base

/-- GenerateWithParts (part_009 lines 195-264): offload the oversized
parts; if the errgroup join fails, return the wrapped error (line 223)
without touching the generation endpoint; otherwise send the rewritten
parts under the retry executor. -/
def GenerateWithParts (c : Client) (gen : Nat → Except GoError GenerateContentResponse)
    (upload : Nat → Except GoError String)
    (modelName : String) (parts : List Part) (opts : ImageOptions) :
    List NetCall × Except GoError Response :=
  let up := uploadAll upload (oversizedIndices parts)
  match up.2 with
  | .error e => (up.1, .error (.wrapped "failed during parallel file upload" e))
  | .ok subs =>
    let processedParts := substituteParts parts subs
    let contents : List Content := [{ role := "user", parts := processedParts }]
    let g := runGenerateOp c gen modelName contents (buildGenConfig c opts)
    (up.1 ++ g.1, g.2)

/-!
Pointer-level model of the offload phase (part_009 lines 196-224), for
the frame property: Go parts are heap-allocated objects (`*genai.Part`)
and the caller's slice holds addresses into that heap. The code copies
the address slice (`copy(processedParts, parts)`) and the loop's only
write is `processedParts[i] = &genai.Part{...}`: a fresh allocation
stored into the copy. The heap is a list of cells, an address is an
index, and a fresh allocation appends a cell.
-/

/-- One iteration of the offload loop at position `i` holding address
`addr`: when the referenced part is oversized and its upload succeeds,
allocate the reference-only replacement at the end of the heap and
store its address into the copied slice; the failure branch returns the
error without any write. -/
def offloadStep (up : Nat → Option String) :
    List Part × List Nat → Nat × Nat → List Part × List Nat
  | (heap, processed), (i, addr) =>
    if (heap.getD addr default).isOversized then
      match up i with
      | some uri =>
        (heap ++ [{ fileData := some { fileURI := uri } }], processed.set i heap.length)
      | none => (heap, processed)
    else (heap, processed)

/-- The offload phase over the caller's address slice: start from a
copy of the slice and fold the loop body over its indexed entries. -/
def offloadAlloc (heap : List Part) (callerSlice : List Nat)
    (up : Nat → Option String) : List Part × List Nat :=
  callerSlice.enum.foldl (offloadStep up) (heap, callerSlice)

namespace SpecModel

/-- The per-part upload chain of file_api.go (upload, then poll to
Active): its outcome is an oracle from part index to the uploaded
file's URI and name — uploadToFileAPI returns the name precisely for
the later deletion. On failure the wrap of part_009 line 211 applies.
The successes accumulated before a failure are also returned, since the
cleanup is attempted for them too. -/
def uploadAllNamed (upload : Nat → Except GoError (String × String)) :
    List Nat → List NetCall × List (Nat × String × String) × Option GoError
  | [] => ([], [], none)
  | i :: rest =>
    match upload i with
    | .error e =>
      ([.uploadCall i], [],
        some (.wrapped "failed to upload large inline data to File API" e))
    | .ok r =>
      let p := uploadAllNamed upload rest
      (.uploadCall i :: p.1, (i, r.1, r.2) :: p.2.1, p.2.2)

/-- Modelled from the spec: the revision of Client.GenerateWithParts
that performs blob cleanup is not under src/ — types.go declares the
interface and the polling constants, and file_api.go's uploadToFileAPI
returns the file name "used for deletion", but the caller that records
the names and deletes the blobs is absent. Per spec section 4.4: after
the generation call completes (success or failure), every successfully
uploaded blob is deleted, best-effort, before the result is returned;
on an upload failure the call aborts before any generation request and
cleanup is attempted for the blobs that did succeed. -/
def GenerateWithPartsCleanup (c : Client)
    (gen : Nat → Except GoError GenerateContentResponse)
    (upload : Nat → Except GoError (String × String))
    (modelName : String) (parts : List Part) (opts : ImageOptions) :
    List NetCall × Except GoError Response :=
  let up := uploadAllNamed upload (oversizedIndices parts)
  let deletes := up.2.1.map (fun s => NetCall.deleteCall s.2.2)
  match up.2.2 with
  | some e => (up.1 ++ deletes, .error (.wrapped "failed during parallel file upload" e))
  | none =>
    let processedParts := substituteParts parts (up.2.1.map (fun s => (s.1, s.2.1)))
    let contents : List Content := [{ role := "user", parts := processedParts }]
    let g := runGenerateOp c gen modelName contents (buildGenConfig c opts)
    (up.1 ++ g.1 ++ deletes, g.2)

end SpecModel

/-! Concrete fixtures shared by witnesses. -/

/-- A concrete client (temperature 0.7, the retry defaults). -/
def clientW : Client :=
  { temperature := 7/10
    retryConfig := { maxRetries := 3, initialInterval := DefaultInitialDelay, maxInterval := DefaultMaxDelay } }

/-- A part whose inline payload exceeds the 512 KiB threshold by one byte. -/
def bigPartW : Part := { inlineData := some { dataLen := 524289, mimeType := "image/png" } }

/-- A response whose sole candidate finished normally with no content. -/
def emptyContentRespW : GenerateContentResponse := { candidates := [{ finishReason := .stop }] }

/-- A response whose sole candidate was blocked by the safety filter. -/
def blockedRespW : GenerateContentResponse := { candidates := [{ finishReason := .safety }] }

/-- A generation oracle that always succeeds with the empty-content response. -/
def genOkW : Nat → Except GoError GenerateContentResponse := fun _ => .ok emptyContentRespW

/-- A generation oracle that always fails with a transient gRPC error. -/
def genFailW : Nat → Except GoError GenerateContentResponse :=
  fun _ => .error (.grpcStatusError .internal "server error")

/-- An upload oracle that always succeeds. -/
def uploadOkW : Nat → Except GoError String := fun _ => .ok "files/u1"

/-- A named upload oracle (file_api.go shape) that always succeeds. -/
def uploadNamedOkW : Nat → Except GoError (String × String) := fun _ => .ok ("files/u1", "u1")

/-- A config with a non-empty key and the zero values for the
retry-related fields. -/
def cfgW : Config := { apiKey := "api-key" }

/-! Helper lemmas. -/

/-- The retry loop stops at the first successful attempt and returns its
outcome, whatever fuel remains. -/
theorem retryLoop_ok {A : Type} (pred : GoError → Bool)
    (op : Nat → List NetCall × Except GoError A) (attempt fuel : Nat) (a : A)
    (h : (op attempt).2 = .ok a) :
    retryLoop pred op fuel attempt = ((op attempt).1, .ok a) := by
  cases fuel <;> simp [retryLoop, h]

/-- Every network call in a retry-loop trace was issued by some attempt
of the operation. -/
theorem retryLoop_trace_mem {A : Type} (pred : GoError → Bool)
    (op : Nat → List NetCall × Except GoError A) :
    ∀ fuel attempt x, x ∈ (retryLoop pred op fuel attempt).1 → ∃ a2, x ∈ (op a2).1 := by
  intro fuel
  induction fuel with
  | zero =>
    intro attempt x hx
    rcases h : (op attempt).2 with e | a <;> simp only [retryLoop, h] at hx <;>
      exact ⟨attempt, hx⟩
  | succ n ih =>
    intro attempt x hx
    rcases h : (op attempt).2 with e | a <;> simp only [retryLoop, h] at hx
    · split at hx
      · rcases List.mem_append.mp hx with hl | hr
        · exact ⟨attempt, hl⟩
        · exact ih (attempt + 1) x hr
      · exact ⟨attempt, hx⟩
    · exact ⟨attempt, hx⟩

/-- Every call in a runGenerateOp trace is a generation call to the
given model with the given contents and config. -/
theorem runGenerateOp_trace_mem (c : Client) (gen : Nat → Except GoError GenerateContentResponse)
    (modelName : String) (contents : List Content) (config : GenerateContentConfig)
    (x : NetCall) (hx : x ∈ (runGenerateOp c gen modelName contents config).1) :
    x = .generateCall modelName contents config := by
  obtain ⟨a2, ha⟩ := retryLoop_trace_mem _ _ _ _ _ hx
  rcases h : gen a2 with e | resp <;> simp only [h] at ha
  · simpa using ha
  · rcases h2 : extractTextFromResponse (some resp) with e2 | t <;> simp only [h2] at ha <;>
      simpa using ha

/-- shouldRetry looks through fmt.Errorf wrapping. -/
theorem shouldRetry_wrapped (msg : String) (inner : GoError) :
    shouldRetry (.wrapped msg inner) = shouldRetry inner := rfl

/-- If some marked part's upload fails, the fan-out's join fails. -/
theorem uploadAll_error (upload : Nat → Except GoError String) (i : Nat) (e : GoError) :
    ∀ l : List Nat, i ∈ l → upload i = .error e →
      ∃ e2, (uploadAll upload l).2 = .error e2 := by
  intro l
  induction l with
  | nil => intro h; simp at h
  | cons hd tl ih =>
    intro hmem he
    rcases List.mem_cons.mp hmem with h | h
    · subst h
      simp [uploadAll, he]
    · rcases hu : upload hd with e2 | uri
      · exact ⟨.wrapped "failed to upload large inline data to File API" e2,
          by simp [uploadAll, hu]⟩
      · obtain ⟨e3, h3⟩ := ih h he
        refine ⟨e3, ?_⟩
        simp [uploadAll, hu, h3]

/-- The fan-out trace consists of upload calls only. -/
theorem uploadAll_trace_mem (upload : Nat → Except GoError String) :
    ∀ (l : List Nat) (x : NetCall), x ∈ (uploadAll upload l).1 → ∃ j, x = .uploadCall j := by
  intro l
  induction l with
  | nil => intro x hx; simp [uploadAll] at hx
  | cons hd tl ih =>
    intro x hx
    rcases hu : upload hd with e | uri <;> rw [uploadAll, hu] at hx
    · simp at hx
      exact ⟨hd, hx⟩
    · simp at hx
      rcases hx with h | h
      · exact ⟨hd, h⟩
      · exact ih x h

/-- When every marked upload succeeds, the named fan-out reports no
failure, records one upload call per marked part, and accumulates one
(index, uri, name) triple per marked part. -/
theorem uploadAllNamed_ok (upload : Nat → Except GoError (String × String)) :
    ∀ l : List Nat, (∀ i ∈ l, ∃ v, upload i = .ok v) →
      (SpecModel.uploadAllNamed upload l).1 = l.map NetCall.uploadCall ∧
      (SpecModel.uploadAllNamed upload l).2.2 = none ∧
      (SpecModel.uploadAllNamed upload l).2.1.length = l.length := by
  intro l
  induction l with
  | nil => intro _; simp [SpecModel.uploadAllNamed]
  | cons hd tl ih =>
    intro h
    obtain ⟨v, hv⟩ := h hd (List.mem_cons_self hd tl)
    obtain ⟨h1, h2, h3⟩ := ih (fun i hi => h i (List.mem_cons_of_mem hd hi))
    refine ⟨?_, ?_, ?_⟩ <;> simp [SpecModel.uploadAllNamed, hv, h1, h2, h3]

/-- Each offload-loop iteration only ever appends to the heap. -/
theorem offloadStep_extends (up : Nat → Option String)
    (acc : List Part × List Nat) (ia : Nat × Nat) :
    ∃ ext, (offloadStep up acc ia).1 = acc.1 ++ ext := by
  obtain ⟨heap, processed⟩ := acc
  obtain ⟨i, addr⟩ := ia
  simp only [offloadStep]
  by_cases h : (heap.getD addr default).isOversized = true
  · rw [if_pos h]
    rcases up i with _ | uri
    · exact ⟨[], by simp⟩
    · exact ⟨[{ fileData := some { fileURI := uri } }], rfl⟩
  · rw [if_neg h]
    exact ⟨[], by simp⟩

/-- The whole offload fold only ever appends to the heap. -/
theorem offloadFold_extends (up : Nat → Option String) :
    ∀ (l : List (Nat × Nat)) (acc : List Part × List Nat),
      ∃ ext, (l.foldl (offloadStep up) acc).1 = acc.1 ++ ext := by
  intro l
  induction l with
  | nil => intro acc; exact ⟨[], by simp⟩
  | cons hd tl ih =>
    intro acc
    obtain ⟨e1, h1⟩ := offloadStep_extends up acc hd
    obtain ⟨e2, h2⟩ := ih (offloadStep up acc hd)
    exact ⟨e1 ++ e2, by simp [List.foldl_cons, h2, h1]⟩

/-- The RetryConfig produced on every successful NewClient path
(part_009 lines 91-115): each field is assigned in both arms of its
branch. -/
theorem newClient_ok_retryConfig (genaiOk : Bool) (cfg : Config) (cl : Client)
    (hok : NewClient genaiOk cfg = .ok cl) :
    cl.retryConfig =
      { maxRetries := if cfg.maxRetries > 0 then cfg.maxRetries else DefaultMaxRetries
        initialInterval := if cfg.initialDelay > 0 then cfg.initialDelay else DefaultInitialDelay
        maxInterval := if cfg.maxDelay > 0 then cfg.maxDelay else DefaultMaxDelay } := by
  unfold NewClient at hok
  split at hok
  · simp at hok
  · split at hok
    · simp at hok
    · split at hok
      · split at hok
        · simp at hok
        · injection hok with h
          subst h
          rfl
      · injection hok with h
        subst h
        rfl

/-- When extraction succeeds on the response the oracle keeps
returning, the pipeline finishes on the first attempt with one
generation call. -/
theorem runGenerateOp_first_ok (c : Client) (resp : GenerateContentResponse) (t : String)
    (modelName : String) (contents : List Content) (config : GenerateContentConfig)
    (hext : extractTextFromResponse (some resp) = .ok t) :
    runGenerateOp c (fun _ => .ok resp) modelName contents config =
      ([.generateCall modelName contents config], .ok { text := t, rawResponse := resp }) := by
  unfold runGenerateOp
  rw [retryLoop_ok shouldRetry _ 0 c.retryConfig.maxRetries
    { text := t, rawResponse := resp } (by simp [hext])]
  simp [hext]

/-- A trace made of upload calls contains no delete call. -/
theorem map_uploadCall_filter_delete (l : List Nat) :
    (l.map NetCall.uploadCall).filter NetCall.isDeleteCall = [] := by
  induction l with
  | nil => rfl
  | cons hd tl ih => simp [NetCall.isDeleteCall, ih]

/-! Claim theorems. -/

/-- C3: every error recognized by errors.Is as context.Canceled or
context.DeadlineExceeded (a cancellation or deadline signal from the
caller's own context) is classified NoRetry by shouldRetry. -/
theorem shouldRetry_context_errors_no_retry (e : GoError)
    (h : errorsIsContextCanceled e = true ∨ errorsIsContextDeadlineExceeded e = true) :
    shouldRetry e = false := by
  unfold shouldRetry
  rcases h with h | h <;> simp [h]

theorem shouldRetry_context_errors_no_retry_witness :
    shouldRetry GoError.contextCanceled = false :=
  shouldRetry_context_errors_no_retry GoError.contextCanceled (Or.inl rfl)

/-- C4: for every error carrying a gRPC status, shouldRetry answers
true exactly on the four transient codes (DeadlineExceeded,
Unavailable, ResourceExhausted, Internal) — in particular the
permanent client-side codes and every other code answer false — and
every error carrying no gRPC status at all is classified NoRetry. -/
theorem shouldRetry_grpc_code_classification (e : GoError) :
    (∀ c, statusFromError e = some c → shouldRetry e = transientCode c) ∧
    (statusFromError e = none → shouldRetry e = false) := by
  induction e with
  | apiResponseError msg => exact ⟨fun c hc => by simp [statusFromError] at hc, fun _ => rfl⟩
  | contextCanceled => exact ⟨fun c hc => by simp [statusFromError] at hc, fun _ => rfl⟩
  | contextDeadlineExceeded => exact ⟨fun c hc => by simp [statusFromError] at hc, fun _ => rfl⟩
  | other msg => exact ⟨fun c hc => by simp [statusFromError] at hc, fun _ => rfl⟩
  | grpcStatusError c msg =>
    refine ⟨fun c2 hc => ?_, fun hn => by simp [statusFromError] at hn⟩
    obtain rfl : c = c2 := by simpa [statusFromError] using hc
    cases c <;> rfl
  | wrapped msg inner ih =>
    refine ⟨fun c hc => ?_, fun hn => ?_⟩
    · rw [shouldRetry_wrapped]
      exact ih.1 c (by simpa [statusFromError] using hc)
    · rw [shouldRetry_wrapped]
      exact ih.2 (by simpa [statusFromError] using hn)

theorem shouldRetry_grpc_code_classification_witness :
    shouldRetry (GoError.grpcStatusError Code.unavailable "service unavailable") =
      transientCode Code.unavailable ∧
    shouldRetry (GoError.other "opaque transport failure") = false :=
  ⟨(shouldRetry_grpc_code_classification
      (GoError.grpcStatusError Code.unavailable "service unavailable")).1
        Code.unavailable rfl,
    (shouldRetry_grpc_code_classification (GoError.other "opaque transport failure")).2 rfl⟩

/-- C5: every response whose first candidate carries a finish reason
other than unspecified or stop is rejected by extractTextFromResponse
with the block APIResponseError naming that reason, whatever the
candidate's content. -/
theorem extract_rejects_abnormal_finish_reason (resp : GenerateContentResponse)
    (cand : Candidate) (rest : List Candidate)
    (hc : resp.candidates = cand :: rest)
    (h1 : cand.finishReason ≠ .unspecified) (h2 : cand.finishReason ≠ .stop) :
    extractTextFromResponse (some resp) =
      .error (.apiResponseError (blockedMsg cand.finishReason)) := by
  simp [extractTextFromResponse, hc, h1, h2]

theorem extract_rejects_abnormal_finish_reason_witness :
    extractTextFromResponse (some blockedRespW) =
      .error (.apiResponseError (blockedMsg FinishReason.safety)) :=
  extract_rejects_abnormal_finish_reason blockedRespW { finishReason := .safety } []
    rfl (by decide) (by decide)

/-- C9: GenerateContent with the empty prompt fails immediately with
the input-validation error and an empty network trace: the generation
endpoint is never called and no retry attempt occurs. -/
theorem generateContent_empty_prompt_no_network (c : Client)
    (gen : Nat → Except GoError GenerateContentResponse) (modelName : String) :
    GenerateContent c gen "" modelName =
      ([], .error (.other "プロンプトが空です。入力を確認してください")) := rfl

/-- C10: NewClient replaces MaxRetries = 0 with DefaultMaxRetries = 3
and non-positive InitialDelay/MaxDelay with the package defaults, so
the constructed client never carries a zero retry bound. -/
theorem newClient_zero_retries_replaced_by_default (genaiOk : Bool) (cfg : Config)
    (cl : Client) (hok : NewClient genaiOk cfg = .ok cl)
    (h0 : cfg.maxRetries = 0) (h1 : cfg.initialDelay ≤ 0) (h2 : cfg.maxDelay ≤ 0) :
    cl.retryConfig.maxRetries = DefaultMaxRetries ∧
    cl.retryConfig.initialInterval = DefaultInitialDelay ∧
    cl.retryConfig.maxInterval = DefaultMaxDelay ∧
    cl.retryConfig.maxRetries ≠ 0 := by
  have hs := newClient_ok_retryConfig genaiOk cfg cl hok
  have n0 : ¬(cfg.maxRetries > 0) := by omega
  have n1 : ¬(cfg.initialDelay > 0) := by omega
  have n2 : ¬(cfg.maxDelay > 0) := by omega
  refine ⟨?_, ?_, ?_, ?_⟩ <;> simp [hs, n0, n1, n2, DefaultMaxRetries]

theorem newClient_zero_retries_replaced_by_default_witness :
    clientW.retryConfig.maxRetries = DefaultMaxRetries ∧
    clientW.retryConfig.initialInterval = DefaultInitialDelay ∧
    clientW.retryConfig.maxInterval = DefaultMaxDelay ∧
    clientW.retryConfig.maxRetries ≠ 0 :=
  newClient_zero_retries_replaced_by_default true cfgW clientW rfl rfl
    (by decide) (by decide)

/-- C2 counterexample: a response whose sole candidate finished with
reason stop but carries no content is NOT rejected by the text-only
pipeline: extractTextFromResponse returns the empty string without
error, and GenerateContent succeeds with empty text. -/
theorem textOnly_empty_content_not_rejected :
    extractTextFromResponse (some emptyContentRespW) = .ok "" ∧
    GenerateContent clientW (fun _ => .ok emptyContentRespW) "hello" "gemini-2.5-flash" =
      ([.generateCall "gemini-2.5-flash" (promptToContents "hello")
          { temperature := some clientW.temperature }],
        .ok { text := "", rawResponse := emptyContentRespW }) :=
  ⟨rfl, rfl⟩

/-- C2 (amended): for every response whose first candidate has an
acceptable finish reason but empty content (nil content or no parts),
the shared extractor returns empty text without error, so BOTH the
text-only call (GenerateContent) and the multimodal call
(GenerateWithParts) succeed with empty text. -/
theorem empty_content_extraction_empty_text (resp : GenerateContentResponse)
    (cand : Candidate) (rest : List Candidate) (c : Client)
    (prompt modelName : String) (upload : Nat → Except GoError String) (opts : ImageOptions)
    (hc : resp.candidates = cand :: rest)
    (hfr : cand.finishReason = .unspecified ∨ cand.finishReason = .stop)
    (hct : cand.content = none ∨ ∃ ct, cand.content = some ct ∧ ct.parts = [])
    (hp : prompt ≠ "") :
    extractTextFromResponse (some resp) = .ok "" ∧
    (GenerateContent c (fun _ => .ok resp) prompt modelName).2 =
      .ok { text := "", rawResponse := resp } ∧
    (GenerateWithParts c (fun _ => .ok resp) upload modelName [] opts).2 =
      .ok { text := "", rawResponse := resp } := by
  have hfr2 : ¬(cand.finishReason ≠ .unspecified ∧ cand.finishReason ≠ .stop) := by
    rcases hfr with h | h <;> simp [h]
  have hext : extractTextFromResponse (some resp) = .ok "" := by
    rcases hct with h | ⟨ct, hct2, hparts⟩
    · simp [extractTextFromResponse, hc, hfr2, h]
    · simp [extractTextFromResponse, hc, hfr2, hct2, hparts]
  refine ⟨hext, ?_, ?_⟩
  · unfold GenerateContent
    rw [if_neg hp, runGenerateOp_first_ok c resp "" modelName _ _ hext]
  · unfold GenerateWithParts
    have hov : oversizedIndices ([] : List Part) = [] := rfl
    rw [hov]
    simp only [uploadAll]
    rw [runGenerateOp_first_ok c resp "" modelName _ _ hext]

theorem empty_content_extraction_empty_text_witness :
    extractTextFromResponse (some emptyContentRespW) = .ok "" ∧
    (GenerateContent clientW (fun _ => .ok emptyContentRespW) "hi" "m").2 =
      .ok { text := "", rawResponse := emptyContentRespW } ∧
    (GenerateWithParts clientW (fun _ => .ok emptyContentRespW) uploadOkW "m" [] {}).2 =
      .ok { text := "", rawResponse := emptyContentRespW } :=
  empty_content_extraction_empty_text emptyContentRespW { finishReason := .stop } []
    clientW "hi" "m" uploadOkW {} rfl (Or.inr rfl) (Or.inl rfl) (by decide)

/-- C6: if the upload of any marked part fails, GenerateWithParts
fails and its trace contains upload calls only — the generation
endpoint is never called, so no partially rewritten request is ever
sent. -/
theorem upload_failure_blocks_generation (c : Client)
    (gen : Nat → Except GoError GenerateContentResponse)
    (upload : Nat → Except GoError String)
    (modelName : String) (parts : List Part) (opts : ImageOptions) (i : Nat) (e : GoError)
    (hi : i ∈ oversizedIndices parts) (he : upload i = .error e) :
    (∃ e2, (GenerateWithParts c gen upload modelName parts opts).2 = .error e2) ∧
    (∀ x ∈ (GenerateWithParts c gen upload modelName parts opts).1,
      ∃ j, x = .uploadCall j) := by
  obtain ⟨e2, h2⟩ := uploadAll_error upload i e (oversizedIndices parts) hi he
  constructor
  · refine ⟨.wrapped "failed during parallel file upload" e2, ?_⟩
    simp only [GenerateWithParts, h2]
  · intro x hx
    simp only [GenerateWithParts, h2] at hx
    exact uploadAll_trace_mem upload (oversizedIndices parts) x hx

theorem upload_failure_blocks_generation_witness :
    (∃ e2, (GenerateWithParts clientW genOkW (fun _ => .error (.other "upload boom"))
      "m" [bigPartW] {}).2 = .error e2) ∧
    (∀ x ∈ (GenerateWithParts clientW genOkW (fun _ => .error (.other "upload boom"))
      "m" [bigPartW] {}).1, ∃ j, x = .uploadCall j) :=
  upload_failure_blocks_generation clientW genOkW (fun _ => .error (.other "upload boom"))
    "m" [bigPartW] {} 0 (.other "upload boom") (by decide) rfl

/-- C8: the generation config carries an ImageConfig exactly when
opts.AspectRatio is non-empty (none when it is empty), and every
generation call GenerateWithParts puts on the wire carries exactly
that config. -/
theorem generate_config_aspect_policy (c : Client) (opts : ImageOptions)
    (gen : Nat → Except GoError GenerateContentResponse)
    (upload : Nat → Except GoError String)
    (modelName : String) (parts : List Part) (x : NetCall)
    (hx : x ∈ (GenerateWithParts c gen upload modelName parts opts).1) :
    (buildGenConfig c opts).imageConfig =
      (if opts.aspectRatio = "" then none else some { aspectRatio := opts.aspectRatio }) ∧
    ((∃ j, x = .uploadCall j) ∨
      ∃ contents, x = .generateCall modelName contents (buildGenConfig c opts)) := by
  constructor
  · unfold buildGenConfig
    by_cases h : opts.aspectRatio = "" <;> simp [h]
  · rcases h2 : (uploadAll upload (oversizedIndices parts)).2 with e | subs <;>
      simp only [GenerateWithParts, h2] at hx
    · exact Or.inl (uploadAll_trace_mem upload (oversizedIndices parts) x hx)
    · rcases List.mem_append.mp hx with hl | hr
      · exact Or.inl (uploadAll_trace_mem upload (oversizedIndices parts) x hl)
      · exact Or.inr ⟨_, runGenerateOp_trace_mem c gen modelName _ _ x hr⟩

theorem generate_config_aspect_policy_witness :
    (buildGenConfig clientW {}).imageConfig =
      (if ("" : String) = "" then none else some { aspectRatio := "" }) ∧
    ((∃ j, NetCall.generateCall "m" [{ role := "user", parts := [] }]
        (buildGenConfig clientW {}) = .uploadCall j) ∨
      ∃ contents, NetCall.generateCall "m" [{ role := "user", parts := [] }]
        (buildGenConfig clientW {}) = .generateCall "m" contents (buildGenConfig clientW {})) :=
  generate_config_aspect_policy clientW {} genOkW uploadOkW "m" []
    (.generateCall "m" [{ role := "user", parts := [] }] (buildGenConfig clientW {}))
    (by exact List.Mem.head _)

/-- C7: the offload phase never writes through the caller's slice or
mutates an original part: the heap after offloading extends the heap
before it, so every address the caller's slice holds still refers to
the very same part. -/
theorem offload_preserves_caller_parts (heap : List Part) (callerSlice : List Nat)
    (up : Nat → Option String) (a : Nat) (ha : a < heap.length) :
    (offloadAlloc heap callerSlice up).1.take heap.length = heap ∧
    (offloadAlloc heap callerSlice up).1.getD a default = heap.getD a default := by
  obtain ⟨ext, hext⟩ := offloadFold_extends up callerSlice.enum (heap, callerSlice)
  unfold offloadAlloc
  rw [hext]
  exact ⟨List.take_left heap ext, List.getD_append heap ext default a ha⟩

theorem offload_preserves_caller_parts_witness :
    (offloadAlloc [{ text := "small" }, bigPartW] [0, 1] (fun _ => some "files/u1")).1.take 2 =
      [{ text := "small" }, bigPartW] ∧
    (offloadAlloc [{ text := "small" }, bigPartW] [0, 1] (fun _ => some "files/u1")).1.getD 1
      default = [({ text := "small" } : Part), bigPartW].getD 1 default :=
  offload_preserves_caller_parts [{ text := "small" }, bigPartW] [0, 1]
    (fun _ => some "files/u1") 1 (by decide)

/-- C1: when all K uploads of the oversized parts succeed, the
spec-modelled cleanup revision of GenerateWithParts issues exactly K
delete operations, all of them after every upload and generation call,
whatever the generation outcome. -/
theorem cleanup_deletes_every_uploaded_blob (c : Client)
    (gen : Nat → Except GoError GenerateContentResponse)
    (upload : Nat → Except GoError (String × String))
    (modelName : String) (parts : List Part) (opts : ImageOptions)
    (hup : ∀ i ∈ oversizedIndices parts, ∃ v, upload i = .ok v) :
    ((SpecModel.GenerateWithPartsCleanup c gen upload modelName parts opts).1.filter
        NetCall.isDeleteCall).length = (oversizedIndices parts).length ∧
    (∃ pre post,
      (SpecModel.GenerateWithPartsCleanup c gen upload modelName parts opts).1 =
        pre ++ post ∧
      (∀ x ∈ pre, NetCall.isDeleteCall x = false) ∧
      (∀ x ∈ post, NetCall.isDeleteCall x = true) ∧
      post.length = (oversizedIndices parts).length) := by
  obtain ⟨h1, h2, h3⟩ := uploadAllNamed_ok upload (oversizedIndices parts) hup
  have hgen : ∀ x ∈ (runGenerateOp c gen modelName
      [{ role := "user", parts := substituteParts parts
          ((SpecModel.uploadAllNamed upload (oversizedIndices parts)).2.1.map
            (fun s => (s.1, s.2.1))) }] (buildGenConfig c opts)).1,
      NetCall.isDeleteCall x = false := by
    intro x hxg
    rw [runGenerateOp_trace_mem c gen modelName _ _ x hxg]
    rfl
  have hdel : ∀ x ∈ (SpecModel.uploadAllNamed upload (oversizedIndices parts)).2.1.map
      (fun s => NetCall.deleteCall s.2.2), NetCall.isDeleteCall x = true := by
    intro x hxd
    obtain ⟨s, _, rfl⟩ := List.mem_map.mp hxd
    rfl
  have hupl : ∀ x ∈ (SpecModel.uploadAllNamed upload (oversizedIndices parts)).1,
      NetCall.isDeleteCall x = false := by
    intro x hxu
    rw [h1] at hxu
    obtain ⟨j, _, rfl⟩ := List.mem_map.mp hxu
    rfl
  constructor
  · simp only [SpecModel.GenerateWithPartsCleanup, h2]
    rw [List.filter_append, List.filter_append]
    rw [List.filter_eq_nil_iff.mpr (by simpa using hupl),
      List.filter_eq_nil_iff.mpr (by simpa using hgen),
      List.filter_eq_self.mpr hdel]
    simpa using h3
  · refine ⟨(SpecModel.uploadAllNamed upload (oversizedIndices parts)).1 ++
        (runGenerateOp c gen modelName
          [{ role := "user", parts := substituteParts parts
              ((SpecModel.uploadAllNamed upload (oversizedIndices parts)).2.1.map
                (fun s => (s.1, s.2.1))) }] (buildGenConfig c opts)).1,
      (SpecModel.uploadAllNamed upload (oversizedIndices parts)).2.1.map
        (fun s => NetCall.deleteCall s.2.2), ?_, ?_, hdel, by simpa using h3⟩
    · simp [SpecModel.GenerateWithPartsCleanup, h2]
    · intro x hx
      rcases List.mem_append.mp hx with hl | hr
      · exact hupl x hl
      · exact hgen x hr

theorem cleanup_deletes_every_uploaded_blob_witness :
    ((SpecModel.GenerateWithPartsCleanup clientW genFailW uploadNamedOkW
        "m" [bigPartW] {}).1.filter NetCall.isDeleteCall).length =
      (oversizedIndices [bigPartW]).length ∧
    (∃ pre post,
      (SpecModel.GenerateWithPartsCleanup clientW genFailW uploadNamedOkW
          "m" [bigPartW] {}).1 = pre ++ post ∧
      (∀ x ∈ pre, NetCall.isDeleteCall x = false) ∧
      (∀ x ∈ post, NetCall.isDeleteCall x = true) ∧
      post.length = (oversizedIndices [bigPartW]).length) :=
  cleanup_deletes_every_uploaded_blob clientW genFailW uploadNamedOkW "m" [bigPartW] {}
    (fun _ _ => ⟨("files/u1", "u1"), rfl⟩)

end GoAiClient

